import Mathlib

/-!
A shallow embedding of `scripts/fetch_financials.py`: a single-shot fetcher
that normalizes a ticker symbol, queries a market-data provider, maps the
provider's key-value bag into a fixed output record, and serializes either the
record (stdout, exit 0) or an error object (stderr, exit 1) as one JSON line.

Numbers are modelled as exact rationals (`ℚ`); the provider's response bag is a
structure of optional fields (a key mapped to `none` models both a missing key
and an explicit `None` value, which `dict.get` does not distinguish). Python
truthiness on these values (`x or y`, `x * 100 if x else None`) is translated
explicitly: a number is falsy exactly when it is zero, a string exactly when it
is empty. Exceptions raised inside the `try` block (provider lookup or field
mapping) are modelled as the `.error` case of an `Except String Info` result.
-/

namespace FetchFin

/-- The provider's "ticker info" key-value bag, restricted to the keys the
script reads. Each field is `info.get(key)`: `none` when the key is missing. -/
structure Info where
  longName : Option String
  shortName : Option String
  marketCap : Option ℚ
  trailingPE : Option ℚ
  forwardPE : Option ℚ
  priceToBook : Option ℚ
  trailingEps : Option ℚ
  dividendYield : Option ℚ
  returnOnEquity : Option ℚ
  debtToEquity : Option ℚ
  currentRatio : Option ℚ
  operatingMargins : Option ℚ
  profitMargins : Option ℚ
  totalRevenue : Option ℚ
  netIncomeToCommon : Option ℚ
  totalAssets : Option ℚ
  totalDebt : Option ℚ
  totalStockholdersEquity : Option ℚ
deriving DecidableEq

/-- The provider bag with every key missing; concrete bags below override it. -/
def infoNone : Info :=
  ⟨none, none, none, none, none, none, none, none, none,
   none, none, none, none, none, none, none, none, none⟩

/-- Python `a or b` on two optional numbers: a number is truthy iff nonzero,
`None` is falsy. Models `info.get('trailingPE') or info.get('forwardPE')`. -/
def pyOrNum (a b : Option ℚ) : Option ℚ :=
  match a with
  | some x => if x = 0 then b else some x
  | none => b

/-- Python `a or b` where `a` is an optional string and `b` a string: a string
is truthy iff nonempty. Models the `companyName` fallback chain. -/
def pyOrStr (a : Option String) (b : String) : String :=
  match a with
  | some s => if s = "" then b else s
  | none => b

/-- Python `v * 100 if v else None` on an optional number `v`: the conditional
expression tests truthiness, so a present zero fraction yields `None`. -/
def scalePct (v : Option ℚ) : Option ℚ :=
  match v with
  | some x => if x = 0 then none else some (x * 100)
  | none => none

/-- Does the character list start with `T`? Helper for substring search. -/
def startsT : List Char → Bool
  | 'T' :: _ => true
  | _ => false

/-- Python `'.T' in symbol`: the two-character substring `.T` occurs somewhere
in the list (containment anywhere, not a suffix test). -/
def hasDotT : List Char → Bool
  | [] => false
  | c :: cs => (decide (c = '.') && startsT cs) || hasDotT cs

/-- Line 17: `yahoo_symbol = symbol if '.T' in symbol else f"{symbol}.T"`. -/
def yahooSymbol (symbol : String) : String :=
  if hasDotT symbol.data then symbol else symbol ++ ".T"

/-- Modelled from the spec's words, for comparison with the code (claim C3):
a symbol "already carrying the suffix" is one that ends with `.T`. -/
def endsWithDotT (s : String) : Bool :=
  match s.data.reverse with
  | 'T' :: '.' :: _ => true
  | _ => false

/-- The `financial_data` dict built on lines 24-42, field for field. -/
structure FinancialRecord where
  symbol : String
  companyName : String
  marketCap : Option ℚ
  per : Option ℚ
  pbr : Option ℚ
  eps : Option ℚ
  dividendYield : Option ℚ
  roe : Option ℚ
  debtToEquity : Option ℚ
  currentRatio : Option ℚ
  operatingMargin : Option ℚ
  profitMargin : Option ℚ
  revenue : Option ℚ
  netIncome : Option ℚ
  totalAssets : Option ℚ
  totalDebt : Option ℚ
  shareholdersEquity : Option ℚ
deriving DecidableEq

/-- The field mapping of lines 24-42: each output field reads its provider
key, with Python-truthiness fallbacks for `companyName` and `per` and the
`* 100 if ... else None` scaling for the four percentage fields. -/
def financial_data (symbol : String) (info : Info) : FinancialRecord where
  symbol := symbol
  companyName := pyOrStr info.longName (pyOrStr info.shortName symbol)
  marketCap := info.marketCap
  per := pyOrNum info.trailingPE info.forwardPE
  pbr := info.priceToBook
  eps := info.trailingEps
  dividendYield := scalePct info.dividendYield
  roe := scalePct info.returnOnEquity
  debtToEquity := info.debtToEquity
  currentRatio := info.currentRatio
  operatingMargin := scalePct info.operatingMargins
  profitMargin := scalePct info.profitMargins
  revenue := info.totalRevenue
  netIncome := info.netIncomeToCommon
  totalAssets := info.totalAssets
  totalDebt := info.totalDebt
  shareholdersEquity := info.totalStockholdersEquity

/-- The `error_data` dict of lines 50-54: `error` is the constant `True`,
`message` is `str(e)`, `symbol` is the function's original argument. -/
structure ErrorRecord where
  error : Bool
  message : String
  symbol : String
deriving DecidableEq

/-- What `get_financial_data` emits: exactly one record, on one stream. -/
inductive Output where
  | stdout (r : FinancialRecord)
  | stderr (e : ErrorRecord)
deriving DecidableEq

/-- Lines 12-56, `get_financial_data(symbol)`: normalize the symbol, run the
`try` block, and return the emitted output together with the return status.
The provider argument models `yf.Ticker(...).info` and the rest of the `try`
block: `.ok info` when no exception is raised, `.error msg` when any exception
with text `msg` is raised during lookup or mapping. -/
def get_financial_data (provider : String → Except String Info)
    (symbol : String) : Output × Nat :=
  match provider (yahooSymbol symbol) with
  | .ok info => (.stdout (financial_data symbol info), 0)
  | .error msg => (.stderr ⟨true, msg, symbol⟩, 1)

/-- The minimal error object of line 60: it has no `symbol` field. -/
structure UsageError where
  error : Bool
  message : String
deriving DecidableEq

/-- The usage message printed on a malformed invocation (line 60). -/
def usageMsg : String := "銘柄コードを指定してください"

/-- A payload written to standard error: either the retrieval `error_data`
object or the malformed-invocation usage object. -/
inductive StderrPayload where
  | retrieval (e : ErrorRecord)
  | usage (u : UsageError)
deriving DecidableEq

/-- Everything observable from one run of the `__main__` block. -/
structure ProcOutcome where
  exitCode : Nat
  stdout : Option FinancialRecord
  stderr : Option StderrPayload
  networkCalled : Bool
deriving DecidableEq

/-- Lines 58-64: with `argv` the full `sys.argv` (program name first), a run
either rejects the argument count (before any provider access) or fetches for
`sys.argv[1]` and exits with `get_financial_data`'s return value. -/
def run_main (provider : String → Except String Info)
    (argv : List String) : ProcOutcome :=
  match argv with
  | [_, sym] =>
    match get_financial_data provider sym with
    | (.stdout fr, code) => ⟨code, some fr, none, true⟩
    | (.stderr e, code) => ⟨code, none, some (.retrieval e), true⟩
  | _ => ⟨1, none, some (.usage ⟨true, usageMsg⟩), false⟩

/-!
Serialization layer: the script's three outputs are flat JSON objects printed
by `json.dumps` with default separators. We model the encoder over a scalar
value type (none of the three objects nests), with Python's string-escaping
rules: `\\`, `"` and the short control escapes always, `\uXXXX` for the other
control characters, and — only when `ensure_ascii` is true (the default, used
on line 60 but not on lines 45 and 55) — `\uXXXX` (with surrogate pairs above
`0xFFFF`) for every character outside printable ASCII.
-/

/-- A scalar JSON value, as occurring in the three emitted objects. -/
inductive JScalar where
  | null
  | bool (b : Bool)
  | num (q : ℚ)
  | str (s : String)

/-- The JSON value of an optional number: `None` serializes as `null`. -/
def jopt : Option ℚ → JScalar
  | some q => .num q
  | none => .null

/-- Lowercase hexadecimal digit, as in Python's `\uXXXX` escapes. -/
def hexDigit (n : Nat) : Char :=
  if n < 10 then Char.ofNat (48 + n) else Char.ofNat (87 + n)

/-- A `\uXXXX` escape for a code point below `0x10000`. -/
def uEscape (n : Nat) : List Char :=
  '\\' :: 'u' :: [hexDigit (n / 4096 % 16), hexDigit (n / 256 % 16),
                  hexDigit (n / 16 % 16), hexDigit (n % 16)]

/-- Python's JSON escaping of one character. With `ea := false` (the
`ensure_ascii=False` encoder) only `\\`, `"` and control characters are
escaped; with `ea := true` every character outside `0x20..0x7e` is. -/
def escapeChar (ea : Bool) (c : Char) : List Char :=
  if c = '\\' then ['\\', '\\']
  else if c = '"' then ['\\', '"']
  else if c = '\x08' then ['\\', 'b']
  else if c = '\x0c' then ['\\', 'f']
  else if c = '\n' then ['\\', 'n']
  else if c = '\r' then ['\\', 'r']
  else if c = '\t' then ['\\', 't']
  else if c.toNat < 32 then uEscape c.toNat
  else if ea = true ∧ 127 ≤ c.toNat then
    if c.toNat < 65536 then uEscape c.toNat
    else uEscape (55296 + (c.toNat - 65536) / 1024) ++
         uEscape (56320 + (c.toNat - 65536) % 1024)
  else [c]

/-- Escape every character of a string's character list in order. -/
def escList (ea : Bool) : List Char → List Char
  | [] => []
  | c :: cs => escapeChar ea c ++ escList ea cs

/-- A serialized JSON string: quotes around the escaped contents. -/
def escStr (ea : Bool) (s : String) : List Char :=
  '"' :: (escList ea s.data ++ ['"'])

/-- Decimal digits of a natural number, most significant first. -/
def natDigits (n : Nat) : List Char :=
  if h : n < 10 then [Char.ofNat (48 + n)]
  else natDigits (n / 10) ++ [Char.ofNat (48 + n % 10)]
decreasing_by exact Nat.div_lt_self (by omega) (by omega)

/-- Digits of an integer, with a leading minus sign when negative. -/
def intChars (i : ℤ) : List Char :=
  if i < 0 then '-' :: natDigits i.natAbs else natDigits i.natAbs

/-- Characters of a serialized number. Python prints floats via `repr`; we
render the exact rational with ASCII digits (numerator, and `/denominator`
when not integral), which shares with `repr` the only properties the spec
relies on: the rendering is printable ASCII with no control characters. -/
def ratChars (q : ℚ) : List Char :=
  if q.den = 1 then intChars q.num else intChars q.num ++ '/' :: natDigits q.den

/-- Characters of a serialized scalar. -/
def scalarChars (ea : Bool) : JScalar → List Char
  | .null => "null".data
  | .bool b => if b then "true".data else "false".data
  | .num q => ratChars q
  | .str s => escStr ea s

/-- One `"key": value` member, with `json.dumps`'s default `': '` separator. -/
def fieldChars (ea : Bool) (kv : String × JScalar) : List Char :=
  escStr ea kv.1 ++ ':' :: ' ' :: scalarChars ea kv.2

/-- Members joined by the default `', '` item separator. -/
def fieldsChars (ea : Bool) : List (String × JScalar) → List Char
  | [] => []
  | [kv] => fieldChars ea kv
  | kv :: kv2 :: rest => fieldChars ea kv ++ ',' :: ' ' :: fieldsChars ea (kv2 :: rest)

/-- `json.dumps` of a flat object: members between braces. -/
def dumpsObj (ea : Bool) (fields : List (String × JScalar)) : String :=
  String.mk (Char.ofNat 123 :: (fieldsChars ea fields ++ [Char.ofNat 125]))

/-- The members of the success dict, in the insertion order of lines 24-42. -/
def recordFields (r : FinancialRecord) : List (String × JScalar) :=
  [("symbol", .str r.symbol),
   ("companyName", .str r.companyName),
   ("marketCap", jopt r.marketCap),
   ("per", jopt r.per),
   ("pbr", jopt r.pbr),
   ("eps", jopt r.eps),
   ("dividendYield", jopt r.dividendYield),
   ("roe", jopt r.roe),
   ("debtToEquity", jopt r.debtToEquity),
   ("currentRatio", jopt r.currentRatio),
   ("operatingMargin", jopt r.operatingMargin),
   ("profitMargin", jopt r.profitMargin),
   ("revenue", jopt r.revenue),
   ("netIncome", jopt r.netIncome),
   ("totalAssets", jopt r.totalAssets),
   ("totalDebt", jopt r.totalDebt),
   ("shareholdersEquity", jopt r.shareholdersEquity)]

/-- The members of the `error_data` dict of lines 50-54. -/
def errorFields (e : ErrorRecord) : List (String × JScalar) :=
  [("error", .bool e.error), ("message", .str e.message), ("symbol", .str e.symbol)]

/-- The members of the usage error object of line 60. -/
def usageFields : List (String × JScalar) :=
  [("error", .bool true), ("message", .str usageMsg)]

/-- Line 45: the stdout line, `json.dumps(financial_data, ensure_ascii=False)`. -/
def successLine (symbol : String) (info : Info) : String :=
  dumpsObj false (recordFields (financial_data symbol info))

/-- Line 55: the stderr line, `json.dumps(error_data, ensure_ascii=False)`. -/
def errorLine (e : ErrorRecord) : String :=
  dumpsObj false (errorFields e)

/-- Line 60: the stderr line `json.dumps({..})` — note: no `ensure_ascii=False`
here, so the encoder's ASCII-escaping default applies. -/
def usageLine : String :=
  dumpsObj true usageFields

/-- A provider bag whose dividend-yield fraction is present but zero. -/
def infoZeroYield : Info := { infoNone with dividendYield := some 0 }

/-- A provider bag with a present-but-zero trailing P/E and a forward P/E. -/
def infoZeroTrailing : Info := { infoNone with trailingPE := some 0, forwardPE := some 5 }

/-- A provider bag with a present-but-empty long name and a short name. -/
def infoEmptyLong : Info := { infoNone with longName := some "", shortName := some "S" }

/-- A provider bag reporting a zero market capitalization. -/
def infoZeroCap : Info := { infoNone with marketCap := some 0 }

/-- A provider bag for witness instances: nonzero fractions everywhere the
percentage scaling looks, plus names and valuation figures. -/
def infoSample : Info :=
  { infoNone with
      longName := some "トヨタ自動車",
      shortName := some "TOYOTA",
      trailingPE := some (21/2),
      dividendYield := some (1/40),
      returnOnEquity := some (1/10),
      operatingMargins := some (3/25),
      profitMargins := some (2/25),
      marketCap := some 35000000000000 }

/-!
Helper lemmas about the truthiness combinators and the substring test.
-/

theorem scalePct_some_of_ne {x : ℚ} (hx : x ≠ 0) : scalePct (some x) = some (x * 100) := by
  simp [scalePct, hx]

theorem scalePct_eq_none {v : Option ℚ} : scalePct v = none ↔ v = none ∨ v = some 0 := by
  cases v with
  | none => simp [scalePct]
  | some x =>
    by_cases hx : x = 0 <;> simp [scalePct, hx]

theorem scalePct_ne_some_zero (v : Option ℚ) : ∀ x, scalePct v = some x → x ≠ 0 := by
  intro x hx
  cases v with
  | none => simp [scalePct] at hx
  | some y =>
    by_cases hy : y = 0 <;> simp [scalePct, hy] at hx
    intro h0
    rw [h0] at hx
    exact hy (by linarith [hx])

theorem pyOrNum_some_of_ne {x : ℚ} (hx : x ≠ 0) (b : Option ℚ) :
    pyOrNum (some x) b = some x := by
  simp [pyOrNum, hx]

theorem pyOrNum_falsy {a b : Option ℚ} (ha : a = none ∨ a = some 0) :
    pyOrNum a b = b := by
  rcases ha with h | h <;> subst h <;> simp [pyOrNum]

theorem pyOrStr_some_of_ne {s : String} (hs : s ≠ "") (b : String) :
    pyOrStr (some s) b = s := by
  simp [pyOrStr, hs]

theorem pyOrStr_falsy {a : Option String} {b : String}
    (ha : a = none ∨ a = some "") : pyOrStr a b = b := by
  rcases ha with h | h <;> subst h <;> simp [pyOrStr]

theorem hasDotT_append_dotT (l : List Char) : hasDotT (l ++ '.' :: 'T' :: []) = true := by
  induction l with
  | nil => rfl
  | cons c cs ih => simp [hasDotT, ih]

theorem hasDotT_of_endsWith {s : String} (h : endsWithDotT s = true) :
    hasDotT s.data = true := by
  unfold endsWithDotT at h
  rcases hr : s.data.reverse with _ | ⟨c, rest⟩
  · rw [hr] at h; simp at h
  · rw [hr] at h
    rcases rest with _ | ⟨c2, rest2⟩
    · revert h; split <;> simp_all
    · revert h
      split
      · rename_i heq
        intro _
        obtain ⟨h1, h2, h3⟩ : c = 'T' ∧ c2 = '.' ∧ True := by
          injection heq with e1 e2; injection e2 with e3 e4; exact ⟨e1, e3, trivial⟩
        subst h1; subst h2
        have hd : s.data = rest2.reverse ++ '.' :: 'T' :: [] := by
          have := congrArg List.reverse hr
          simpa using this
        rw [hd]
        exact hasDotT_append_dotT rest2.reverse
      · simp

theorem append_dotT_data (s : String) : (s ++ ".T").data = s.data ++ '.' :: 'T' :: [] := by
  cases s
  rfl

/-- C1: whenever the provider lookup (or anything else in the `try` block)
raises with message `msg`, the program emits exactly one ErrorRecord
`⟨error := true, message := msg, symbol := sym⟩` on standard error, the
process exits with status 1, and no FinancialRecord reaches standard out. -/
theorem fetch_C1_error_record (provider : String → Except String Info)
    (sym msg : String) (h : provider (yahooSymbol sym) = .error msg) :
    get_financial_data provider sym = (.stderr ⟨true, msg, sym⟩, 1)
    ∧ ∀ prog, run_main provider [prog, sym] =
        ⟨1, none, some (.retrieval ⟨true, msg, sym⟩), true⟩ := by
  constructor
  · simp [get_financial_data, h]
  · intro prog
    simp [run_main, get_financial_data, h]

/-- Witness for C1 at a concrete failing provider and symbol. -/
theorem fetch_C1_error_record_witness :
    get_financial_data (fun _ => .error "HTTP Error 404") "7203" =
      (.stderr ⟨true, "HTTP Error 404", "7203"⟩, 1) :=
  (fetch_C1_error_record (fun _ => .error "HTTP Error 404") "7203" "HTTP Error 404" rfl).1

/-- C6: with an argument vector whose user-argument count is not one, the run
exits with status 1, writes the usage error object (which carries no symbol
field) to standard error, emits nothing on standard out, performs no provider
call, and the outcome is independent of the provider entirely. -/
theorem fetch_C6_usage (provider p1 p2 : String → Except String Info)
    (prog : String) (args : List String) (h : args.length ≠ 1) :
    run_main provider (prog :: args) = ⟨1, none, some (.usage ⟨true, usageMsg⟩), false⟩
    ∧ run_main p1 (prog :: args) = run_main p2 (prog :: args) := by
  match args with
  | [] => exact ⟨rfl, rfl⟩
  | [a] => exact absurd rfl h
  | a :: b :: rest => exact ⟨rfl, rfl⟩

/-- Witness for C6 at the zero-argument invocation. -/
theorem fetch_C6_usage_witness :
    run_main (fun _ => .error "never") ["fetch_financials.py"] =
      ⟨1, none, some (.usage ⟨true, usageMsg⟩), false⟩ :=
  (fetch_C6_usage (fun _ => .error "never") (fun _ => .ok infoNone)
    (fun _ => .error "x") "fetch_financials.py" [] (by decide)).1

/-- C7: on a successful lookup the emitted FinancialRecord's `symbol` field is
the original input, even though the lookup itself used the normalized form. -/
theorem fetch_C7_symbol_original (provider : String → Except String Info)
    (sym : String) (info : Info) (h : provider (yahooSymbol sym) = .ok info) :
    get_financial_data provider sym = (.stdout (financial_data sym info), 0)
    ∧ (financial_data sym info).symbol = sym := by
  exact ⟨by simp [get_financial_data, h], rfl⟩

/-- Witness for C7 at an unsuffixed symbol, so the lookup key differs from the
input while the record still carries the input. -/
theorem fetch_C7_symbol_original_witness :
    get_financial_data (fun _ => .ok infoSample) "7203" =
      (.stdout (financial_data "7203" infoSample), 0)
    ∧ (financial_data "7203" infoSample).symbol = "7203" :=
  fetch_C7_symbol_original (fun _ => .ok infoSample) "7203" infoSample rfl

/-- C10: when the lookup fails, the ErrorRecord's `symbol` field is the
original command-line input; in particular, for an input without `.T` it is
not the normalized (suffixed) symbol that the failed lookup used. -/
theorem fetch_C10_error_symbol_original (provider : String → Except String Info)
    (sym msg : String) (h : provider (yahooSymbol sym) = .error msg) :
    ∃ e : ErrorRecord, (get_financial_data provider sym).1 = .stderr e
      ∧ e.symbol = sym
      ∧ (hasDotT sym.data = false → ¬ e.symbol = yahooSymbol sym) := by
  refine ⟨⟨true, msg, sym⟩, by simp [get_financial_data, h], rfl, ?_⟩
  intro hf heq
  have hy : yahooSymbol sym = sym ++ ".T" := by simp [yahooSymbol, hf]
  rw [hy] at heq
  have h2 := congrArg (fun t : String => t.data.length) heq
  simp [append_dotT_data] at h2

/-- Witness for C10 at the unsuffixed symbol `7203`. -/
theorem fetch_C10_error_symbol_original_witness :
    ∃ e : ErrorRecord, (get_financial_data (fun _ => .error "boom") "7203").1 = .stderr e
      ∧ e.symbol = "7203"
      ∧ (hasDotT "7203".data = false → ¬ e.symbol = yahooSymbol "7203") :=
  fetch_C10_error_symbol_original (fun _ => .error "boom") "7203" "boom" rfl

/-- C3 counterexample: `A.TB` does not end with the market suffix, yet
normalization leaves it unchanged instead of appending `.T` (line 17 tests
substring containment, not a suffix): appending would have given `A.TB.T`. -/
theorem fetch_C3_cex :
    endsWithDotT "A.TB" = false ∧ yahooSymbol "A.TB" = "A.TB"
    ∧ ("A.TB" == "A.TB" ++ ".T") = false := by decide

/-- C3 amended: normalization appends `.T` exactly when the input does not
contain `.T` as a substring; any input containing `.T` anywhere — in
particular any input ending with `.T` — is returned unchanged. -/
theorem fetch_C3_amended (s : String) :
    (hasDotT s.data = false → yahooSymbol s = s ++ ".T")
    ∧ (hasDotT s.data = true → yahooSymbol s = s)
    ∧ (endsWithDotT s = true → yahooSymbol s = s) :=
  ⟨fun h => by simp [yahooSymbol, h], fun h => by simp [yahooSymbol, h],
   fun h => by simp [yahooSymbol, hasDotT_of_endsWith h]⟩

/-- Witness for C3 at a bare code and at a suffixed code. -/
theorem fetch_C3_amended_witness :
    yahooSymbol "7203" = "7203" ++ ".T" ∧ yahooSymbol "7203.T" = "7203.T" :=
  ⟨(fetch_C3_amended "7203").1 (by decide), (fetch_C3_amended "7203.T").2.2 (by decide)⟩

/-- C2 counterexample: a present-but-zero dividend-yield fraction makes the
output field absent (the conditional expression on line 31 tests Python
truthiness, not presence), so "absent iff the fraction is absent" fails. -/
theorem fetch_C2_cex :
    infoZeroYield.dividendYield = some 0
    ∧ (financial_data "7203" infoZeroYield).dividendYield = none := by decide

/-- C2 amended: each percentage-class field equals the provider fraction × 100
when the fraction is present and nonzero, and is absent iff the fraction is
absent or zero. -/
theorem fetch_C2_amended (sym : String) (info : Info) :
    (∀ x : ℚ, info.dividendYield = some x → x ≠ 0 →
        (financial_data sym info).dividendYield = some (x * 100))
    ∧ ((financial_data sym info).dividendYield = none ↔
        info.dividendYield = none ∨ info.dividendYield = some 0)
    ∧ (∀ x : ℚ, info.returnOnEquity = some x → x ≠ 0 →
        (financial_data sym info).roe = some (x * 100))
    ∧ ((financial_data sym info).roe = none ↔
        info.returnOnEquity = none ∨ info.returnOnEquity = some 0)
    ∧ (∀ x : ℚ, info.operatingMargins = some x → x ≠ 0 →
        (financial_data sym info).operatingMargin = some (x * 100))
    ∧ ((financial_data sym info).operatingMargin = none ↔
        info.operatingMargins = none ∨ info.operatingMargins = some 0)
    ∧ (∀ x : ℚ, info.profitMargins = some x → x ≠ 0 →
        (financial_data sym info).profitMargin = some (x * 100))
    ∧ ((financial_data sym info).profitMargin = none ↔
        info.profitMargins = none ∨ info.profitMargins = some 0) := by
  refine ⟨?_, ?_, ?_, ?_, ?_, ?_, ?_, ?_⟩ <;>
    first
      | (intro x hx hne; simp [financial_data, hx, scalePct_some_of_ne hne])
      | (simp [financial_data, scalePct_eq_none])

/-- Witness for C2 at a nonzero fraction and at a zero fraction. -/
theorem fetch_C2_amended_witness :
    (financial_data "7203" infoSample).dividendYield = some ((1/40 : ℚ) * 100)
    ∧ ((financial_data "7203" infoZeroYield).dividendYield = none ↔
        infoZeroYield.dividendYield = none ∨ infoZeroYield.dividendYield = some 0) :=
  ⟨(fetch_C2_amended "7203" infoSample).1 (1/40) rfl (by norm_num),
   (fetch_C2_amended "7203" infoZeroYield).2.1⟩

/-- C4 counterexample: with a present-but-zero trailing P/E, `per` is the
forward P/E, not the (present) trailing value — line 28's `or` tests
truthiness, so zero falls through. -/
theorem fetch_C4_cex :
    infoZeroTrailing.trailingPE = some 0
    ∧ infoZeroTrailing.forwardPE = some 5
    ∧ (financial_data "7203" infoZeroTrailing).per = some 5 := by decide

/-- C4 amended: `per` equals the trailing P/E when it is present and nonzero;
when the trailing P/E is absent or zero, `per` equals the forward P/E field
verbatim (hence absent exactly when the forward P/E is also absent). -/
theorem fetch_C4_amended (sym : String) (info : Info) :
    (∀ t : ℚ, info.trailingPE = some t → t ≠ 0 → (financial_data sym info).per = some t)
    ∧ ((info.trailingPE = none ∨ info.trailingPE = some 0) →
        (financial_data sym info).per = info.forwardPE) := by
  constructor
  · intro t ht hne
    simp [financial_data, ht, pyOrNum_some_of_ne hne]
  · intro h
    simp [financial_data, pyOrNum_falsy h]

/-- Witness for C4 at a nonzero trailing P/E and at a zero trailing P/E. -/
theorem fetch_C4_amended_witness :
    (financial_data "7203" infoSample).per = some (21/2 : ℚ)
    ∧ (financial_data "7203" infoZeroTrailing).per = infoZeroTrailing.forwardPE :=
  ⟨(fetch_C4_amended "7203" infoSample).1 (21/2) rfl (by norm_num),
   (fetch_C4_amended "7203" infoZeroTrailing).2 (Or.inr rfl)⟩

/-- C5 counterexample: a present-but-empty long name is skipped (line 26's
`or` chain tests truthiness), so `companyName` is the short name rather than
the provider's (present) long name. -/
theorem fetch_C5_cex :
    infoEmptyLong.longName = some ""
    ∧ infoEmptyLong.shortName = some "S"
    ∧ (financial_data "7203" infoEmptyLong).companyName = "S" := by decide

/-- C5 amended: `companyName` is the long name when present and nonempty,
else the short name when present and nonempty, else the input symbol. -/
theorem fetch_C5_amended (sym : String) (info : Info) :
    (∀ s, info.longName = some s → s ≠ "" → (financial_data sym info).companyName = s)
    ∧ ((info.longName = none ∨ info.longName = some "") →
        ∀ s, info.shortName = some s → s ≠ "" → (financial_data sym info).companyName = s)
    ∧ ((info.longName = none ∨ info.longName = some "") →
        (info.shortName = none ∨ info.shortName = some "") →
        (financial_data sym info).companyName = sym) := by
  refine ⟨?_, ?_, ?_⟩
  · intro s hs hne
    simp [financial_data, hs, pyOrStr_some_of_ne hne]
  · intro hl s hs hne
    simp [financial_data, pyOrStr_falsy hl, hs, pyOrStr_some_of_ne hne]
  · intro hl hsh
    simp [financial_data, pyOrStr_falsy hl, pyOrStr_falsy hsh]

/-- Witness for C5 with a nonempty long name and with no names at all. -/
theorem fetch_C5_amended_witness :
    (financial_data "7203" infoSample).companyName = "トヨタ自動車"
    ∧ (financial_data "7203" infoNone).companyName = "7203" :=
  ⟨(fetch_C5_amended "7203" infoSample).1 "トヨタ自動車" rfl (by decide),
   (fetch_C5_amended "7203" infoNone).2.2 (Or.inl rfl) (Or.inl rfl)⟩

/-- C8 counterexample: a zero provider market capitalization is passed through
unchanged, so the output's `marketCap` field holds the value zero — the claim
that no numeric field ever holds zero fails for the pass-through fields. -/
theorem fetch_C8_cex :
    infoZeroCap.marketCap = some 0
    ∧ (financial_data "7203" infoZeroCap).marketCap = some 0 := by decide

/-- C8 amended: every numeric field is a number or absent (the record's typed
fields admit no string sentinel); the four percentage fields are never the
number zero, a zero fraction being coerced to absent; the remaining numeric
fields are passed through verbatim from the provider, so they hold zero
exactly when the provider reports zero. -/
theorem fetch_C8_amended (sym : String) (info : Info) :
    ((∀ x : ℚ, (financial_data sym info).dividendYield = some x → x ≠ 0)
      ∧ (∀ x : ℚ, (financial_data sym info).roe = some x → x ≠ 0)
      ∧ (∀ x : ℚ, (financial_data sym info).operatingMargin = some x → x ≠ 0)
      ∧ (∀ x : ℚ, (financial_data sym info).profitMargin = some x → x ≠ 0))
    ∧ ((financial_data sym info).marketCap = info.marketCap
      ∧ (financial_data sym info).pbr = info.priceToBook
      ∧ (financial_data sym info).eps = info.trailingEps
      ∧ (financial_data sym info).debtToEquity = info.debtToEquity
      ∧ (financial_data sym info).currentRatio = info.currentRatio
      ∧ (financial_data sym info).revenue = info.totalRevenue
      ∧ (financial_data sym info).netIncome = info.netIncomeToCommon
      ∧ (financial_data sym info).totalAssets = info.totalAssets
      ∧ (financial_data sym info).totalDebt = info.totalDebt
      ∧ (financial_data sym info).shareholdersEquity = info.totalStockholdersEquity) := by
  refine ⟨⟨?_, ?_, ?_, ?_⟩, rfl, rfl, rfl, rfl, rfl, rfl, rfl, rfl, rfl, rfl⟩ <;>
    exact fun x hx => scalePct_ne_some_zero _ x hx

/-- Witness for C8: a nonzero scaled percentage and a zero pass-through. -/
theorem fetch_C8_amended_witness :
    ((5 : ℚ)/2 ≠ 0)
    ∧ (financial_data "7203" infoZeroCap).marketCap = infoZeroCap.marketCap :=
  ⟨(fetch_C8_amended "7203" infoSample).1.1 (5/2)
      (by norm_num [financial_data, infoSample, infoNone, scalePct]),
   (fetch_C8_amended "7203" infoZeroCap).2.1⟩

/-!
Character-level facts about the JSON encoder, used for C9: every character an
escape sequence produces is printable ASCII, a non-ASCII character survives
the `ensure_ascii=False` encoder literally, and hence each emitted line is
free of control characters (in particular of newlines).
-/

theorem hexDigit_range {m : Nat} (hm : m < 16) :
    32 ≤ (hexDigit m).toNat ∧ (hexDigit m).toNat < 128 := by
  interval_cases m <;> decide

theorem mem_uEscape {d : Char} {n : Nat} (hd : d ∈ uEscape n) :
    32 ≤ d.toNat ∧ d.toNat < 128 := by
  simp only [uEscape, List.mem_cons, List.mem_singleton] at hd
  rcases hd with rfl | rfl | rfl | rfl | rfl | h
  · decide
  · decide
  · exact hexDigit_range (Nat.mod_lt _ (by norm_num))
  · exact hexDigit_range (Nat.mod_lt _ (by norm_num))
  · exact hexDigit_range (Nat.mod_lt _ (by norm_num))
  · simp at h
    rcases h with rfl
    exact hexDigit_range (Nat.mod_lt _ (by norm_num))

set_option maxHeartbeats 2000000 in
theorem mem_escapeChar {ea : Bool} {c d : Char} (hd : d ∈ escapeChar ea c) :
    (d = c ∧ 32 ≤ c.toNat) ∨ (32 ≤ d.toNat ∧ d.toNat < 128) := by
  unfold escapeChar at hd
  split_ifs at hd with h1 h2 h3 h4 h5 h6 h7 h8 h9 h10
  · right; simp at hd; subst hd; decide
  · right; simp at hd; rcases hd with rfl | rfl <;> decide
  · right; simp at hd; rcases hd with rfl | rfl <;> decide
  · right; simp at hd; rcases hd with rfl | rfl <;> decide
  · right; simp at hd; rcases hd with rfl | rfl <;> decide
  · right; simp at hd; rcases hd with rfl | rfl <;> decide
  · right; simp at hd; rcases hd with rfl | rfl <;> decide
  · right; exact mem_uEscape hd
  · right; exact mem_uEscape hd
  · right
    rcases List.mem_append.mp hd with h | h <;> exact mem_uEscape h
  · left
    simp at hd
    exact ⟨hd, by omega⟩

theorem mem_escapeChar_ge32 {ea : Bool} {c d : Char} (hd : d ∈ escapeChar ea c) :
    32 ≤ d.toNat := by
  rcases mem_escapeChar hd with ⟨rfl, h⟩ | ⟨h, _⟩ <;> exact h

theorem escapeChar_lit {c : Char} (h : 128 ≤ c.toNat) : escapeChar false c = [c] := by
  have h1 : ¬ c = '\\' := by rintro rfl; exact absurd h (by decide)
  have h2 : ¬ c = '"' := by rintro rfl; exact absurd h (by decide)
  have h3 : ¬ c = '\x08' := by rintro rfl; exact absurd h (by decide)
  have h4 : ¬ c = '\x0c' := by rintro rfl; exact absurd h (by decide)
  have h5 : ¬ c = '\n' := by rintro rfl; exact absurd h (by decide)
  have h6 : ¬ c = '\r' := by rintro rfl; exact absurd h (by decide)
  have h7 : ¬ c = '\t' := by rintro rfl; exact absurd h (by decide)
  have h8 : ¬ c.toNat < 32 := by omega
  have h9 : ¬ (false = true ∧ 127 ≤ c.toNat) := by simp
  simp [escapeChar, h1, h2, h3, h4, h5, h6, h7, h8, h9]

theorem mem_escList_ge32 {ea : Bool} {l : List Char} {d : Char}
    (hd : d ∈ escList ea l) : 32 ≤ d.toNat := by
  induction l with
  | nil => simp [escList] at hd
  | cons c cs ih =>
    simp only [escList] at hd
    rcases List.mem_append.mp hd with h | h
    · exact mem_escapeChar_ge32 h
    · exact ih h

theorem count_escList {c : Char} (h : 128 ≤ c.toNat) :
    ∀ l : List Char, (escList false l).count c = l.count c := by
  intro l
  induction l with
  | nil => rfl
  | cons d cs ih =>
    simp only [escList, List.count_append, List.count_cons, ih]
    by_cases hdc : d = c
    · subst hdc
      rw [escapeChar_lit h]
      simp [List.count_cons]
      omega
    · have hz : (escapeChar false d).count c = 0 := by
        refine List.count_eq_zero.mpr fun hc => ?_
        rcases mem_escapeChar hc with ⟨rfl, _⟩ | ⟨_, hlt⟩
        · exact hdc rfl
        · omega
      rw [hz]
      simp [hdc]

theorem digit_char_range {m : Nat} (hm : m < 10) :
    48 ≤ (Char.ofNat (48 + m)).toNat ∧ (Char.ofNat (48 + m)).toNat ≤ 57 := by
  interval_cases m <;> decide

theorem mem_natDigits {n : Nat} {d : Char} (hd : d ∈ natDigits n) :
    48 ≤ d.toNat ∧ d.toNat ≤ 57 := by
  induction n using Nat.strong_induction_on with
  | _ n ih =>
    rw [natDigits] at hd
    split at hd
    · rename_i h10
      simp at hd
      subst hd
      exact digit_char_range h10
    · rename_i h10
      rcases List.mem_append.mp hd with h | h
      · exact ih (n / 10) (Nat.div_lt_self (by omega) (by omega)) h
      · simp at h
        subst h
        exact digit_char_range (Nat.mod_lt _ (by omega))

theorem mem_intChars {i : ℤ} {d : Char} (hd : d ∈ intChars i) :
    32 ≤ d.toNat ∧ d.toNat < 128 := by
  unfold intChars at hd
  split at hd
  · rcases List.mem_cons.mp hd with rfl | h
    · decide
    · have := mem_natDigits h; omega
  · have := mem_natDigits hd; omega

theorem mem_ratChars {q : ℚ} {d : Char} (hd : d ∈ ratChars q) :
    32 ≤ d.toNat ∧ d.toNat < 128 := by
  unfold ratChars at hd
  split at hd
  · exact mem_intChars hd
  · rcases List.mem_append.mp hd with h | h
    · exact mem_intChars h
    · rcases List.mem_cons.mp h with rfl | h2
      · decide
      · have := mem_natDigits h2; omega

theorem mem_scalarChars_ge32 {ea : Bool} {v : JScalar} {d : Char}
    (hd : d ∈ scalarChars ea v) : 32 ≤ d.toNat := by
  match v with
  | .null => simp [scalarChars] at hd; rcases hd with rfl | rfl | rfl <;> decide
  | .bool b =>
    cases b <;> simp [scalarChars] at hd <;>
      rcases hd with rfl | rfl | rfl | rfl | rfl <;> decide
  | .num q => exact (mem_ratChars hd).1
  | .str s =>
    simp only [scalarChars, escStr] at hd
    rcases List.mem_cons.mp hd with rfl | h
    · decide
    · rcases List.mem_append.mp h with h2 | h2
      · exact mem_escList_ge32 h2
      · simp at h2; subst h2; decide

theorem mem_fieldChars_ge32 {ea : Bool} {kv : String × JScalar} {d : Char}
    (hd : d ∈ fieldChars ea kv) : 32 ≤ d.toNat := by
  unfold fieldChars at hd
  rcases List.mem_append.mp hd with h | h
  · rcases List.mem_cons.mp h with rfl | h2
    · decide
    · rcases List.mem_append.mp h2 with h3 | h3
      · exact mem_escList_ge32 h3
      · simp at h3; subst h3; decide
  · rcases List.mem_cons.mp h with rfl | h2
    · decide
    · rcases List.mem_cons.mp h2 with rfl | h3
      · decide
      · exact mem_scalarChars_ge32 h3

theorem mem_fieldsChars_ge32 {ea : Bool} {fields : List (String × JScalar)} {d : Char}
    (hd : d ∈ fieldsChars ea fields) : 32 ≤ d.toNat := by
  induction fields with
  | nil => simp [fieldsChars] at hd
  | cons kv rest ih =>
    rcases rest with _ | ⟨kv2, rest2⟩
    · exact mem_fieldChars_ge32 hd
    · simp only [fieldsChars] at hd
      rcases List.mem_append.mp hd with h | h
      · exact mem_fieldChars_ge32 h
      · rcases List.mem_cons.mp h with rfl | h2
        · decide
        · rcases List.mem_cons.mp h2 with rfl | h3
          · decide
          · exact ih h3

theorem mem_dumpsObj_ge32 {ea : Bool} {fields : List (String × JScalar)} {d : Char}
    (hd : d ∈ (dumpsObj ea fields).data) : 32 ≤ d.toNat := by
  simp only [dumpsObj] at hd
  rcases List.mem_cons.mp hd with rfl | h
  · decide
  · rcases List.mem_append.mp h with h2 | h2
    · exact mem_fieldsChars_ge32 h2
    · simp at h2; subst h2; decide

set_option maxHeartbeats 1000000 in
theorem count_errorLine (e : ErrorRecord) (c : Char) (h : 128 ≤ c.toNat) :
    e.message.data.count c ≤ (errorLine e).data.count c
    ∧ e.symbol.data.count c ≤ (errorLine e).data.count c := by
  have hm := count_escList h e.message.data
  have hs := count_escList h e.symbol.data
  simp only [errorLine, dumpsObj, errorFields, fieldsChars, fieldChars, scalarChars,
    escStr, List.count_append, List.count_cons]
  rw [hm, hs]
  constructor <;> split_ifs <;> omega

set_option maxHeartbeats 2000000 in
theorem count_successLine (sym : String) (info : Info) (c : Char) (h : 128 ≤ c.toNat) :
    sym.data.count c ≤ (successLine sym info).data.count c
    ∧ (financial_data sym info).companyName.data.count c ≤
        (successLine sym info).data.count c := by
  have hs := count_escList h sym.data
  have hn := count_escList h (financial_data sym info).companyName.data
  simp only [successLine, dumpsObj, recordFields, fieldsChars, fieldChars, scalarChars,
    escStr, List.count_append, List.count_cons]
  have hsym : (financial_data sym info).symbol = sym := rfl
  rw [hsym, hs, hn]
  constructor <;> split_ifs <;> omega

/-- C9 counterexample: the malformed-invocation error object is serialized
without `ensure_ascii=False` (line 60), so its non-ASCII usage message is
`\uXXXX`-escaped: the message contains non-ASCII characters, yet the emitted
line is pure ASCII — the characters are not emitted literally. -/
theorem fetch_C9_cex :
    usageMsg.data.all (fun c => decide (c.toNat < 128)) = false
    ∧ usageLine.data.all (fun c => decide (c.toNat < 128)) = true := by decide

/-- C9 amended: every emitted output is a single line (no newline can occur,
every emitted character having code at least 32); the FinancialRecord and the
retrieval ErrorRecord lines are encoded with `ensure_ascii=False`, preserving
every non-ASCII character of their string payloads literally (counts do not
drop); but the malformed-invocation error object is encoded with the
ASCII-escaping default, so its output line is entirely ASCII. -/
theorem fetch_C9_amended :
    (∀ (sym : String) (info : Info), '\n' ∉ (successLine sym info).data)
    ∧ (∀ e : ErrorRecord, '\n' ∉ (errorLine e).data)
    ∧ ('\n' ∉ usageLine.data)
    ∧ (∀ (e : ErrorRecord) (c : Char), 128 ≤ c.toNat →
        e.message.data.count c ≤ (errorLine e).data.count c
        ∧ e.symbol.data.count c ≤ (errorLine e).data.count c)
    ∧ (∀ (sym : String) (info : Info) (c : Char), 128 ≤ c.toNat →
        sym.data.count c ≤ (successLine sym info).data.count c
        ∧ (financial_data sym info).companyName.data.count c ≤
            (successLine sym info).data.count c)
    ∧ usageLine.data.all (fun c => decide (c.toNat < 128)) = true := by
  refine ⟨?_, ?_, ?_, count_errorLine, count_successLine, by decide⟩
  · intro sym info hmem
    exact absurd (mem_dumpsObj_ge32 hmem) (by decide)
  · intro e hmem
    exact absurd (mem_dumpsObj_ge32 hmem) (by decide)
  · intro hmem
    exact absurd (mem_dumpsObj_ge32 hmem) (by decide)

/-- Witness for C9 at the concrete usage line and a Japanese error message. -/
theorem fetch_C9_amended_witness :
    ('\n' ∉ usageLine.data)
    ∧ ((⟨true, "銘", "7203"⟩ : ErrorRecord).message.data.count '銘' ≤
        (errorLine ⟨true, "銘", "7203"⟩).data.count '銘') :=
  ⟨fetch_C9_amended.2.2.1,
   (fetch_C9_amended.2.2.2.1 ⟨true, "銘", "7203"⟩ '銘' (by decide)).1⟩

end FetchFin
